import Mathlib

/-!
Verification development for the `cml-2019` notebook collection.

The repository holds three instructional notebooks:
* `02b-Solution-StandardScaling` (src/unnamed/part_000): loads
  `data/powerplant.csv`, runs a baseline linear regression, then repeats the
  regression on standardized features and prints both RMSE values.
* `0b-Recommender-Overview` (first notebook of 05-Recommender-MatrixFac.ipynb):
  fetches the 20newsgroups corpus, vectorizes it with tf-idf, fits an NMF
  model and prints the top-ranked terms of each topic via `print_top_words`.
* `04-Training-Dimensions-Streaming` (second notebook of the same file):
  loads `data/diamonds.csv`, one-hot encodes it, runs KMeans with 3 clusters,
  prints per-cluster price means, then fits a 2-component PCA on iris data.

Numeric data is embedded over `ℚ` (the notebooks' float arithmetic is exact
real arithmetic in the spec's reading); square roots, which `ℚ` lacks, enter
either as an explicit parameter constrained by a hypothesis (`σ * σ = var`)
or through `Real.sqrt` in theorem statements only.
-/

namespace CML2019

/-! ### Basic list statistics (column operations used by StandardScaler) -/

/-- Arithmetic mean of a list of rationals (0 for the empty list). -/
def listMean (xs : List ℚ) : ℚ := xs.sum / xs.length

/-- Population variance (`ddof = 0`, numpy/sklearn default) of a list. -/
def listVar (xs : List ℚ) : ℚ :=
  ((xs.map (fun x => (x - listMean xs) ^ 2)).sum) / xs.length

/-- Standardization of one column, as the StandardScaling notebook describes
it: subtract the column mean and divide by the standard deviation `σ`.
`σ` is passed explicitly; the intended instantiation satisfies
`σ * σ = listVar xs`. -/
def standardizeCol (σ : ℚ) (xs : List ℚ) : List ℚ :=
  xs.map (fun x => (x - listMean xs) / σ)

theorem listMean_nil : listMean [] = 0 := by simp [listMean]

/-- Helper: sum of a mapped subtraction splits. -/
theorem sum_map_sub (f g : ℚ → ℚ) (xs : List ℚ) :
    (xs.map (fun x => f x - g x)).sum = (xs.map f).sum - (xs.map g).sum := by
  induction xs with
  | nil => simp
  | cons a t ih => simp [ih]; ring

/-- Helper: sum of a mapped division pulls the divisor out. -/
theorem sum_map_div (f : ℚ → ℚ) (c : ℚ) (xs : List ℚ) :
    (xs.map (fun x => f x / c)).sum = (xs.map f).sum / c := by
  induction xs with
  | nil => simp
  | cons a t ih => simp [ih]; ring

/-- Helper: sum of a constant over a list. -/
theorem sum_map_const (c : ℚ) (xs : List ℚ) :
    (xs.map (fun _ => c)).sum = xs.length * c := by
  induction xs with
  | nil => simp
  | cons a t ih => simp [ih]; ring

/-- Helper: the centered column sums to zero. -/
theorem sum_centered (xs : List ℚ) (h : xs ≠ []) :
    (xs.map (fun x => x - listMean xs)).sum = 0 := by
  have hn : (xs.length : ℚ) ≠ 0 := by
    exact_mod_cast Nat.cast_ne_zero.mpr (List.length_pos.mpr h).ne'
  rw [sum_map_sub (fun x => x) (fun _ => listMean xs) xs]
  rw [List.map_id', sum_map_const]
  rw [listMean]
  field_simp

/-- Helper: a list of nonnegatives with one positive member has positive sum. -/
theorem sum_pos_of_mem_pos (xs : List ℚ) (hnn : ∀ x ∈ xs, 0 ≤ x)
    (x : ℚ) (hx : x ∈ xs) (hxpos : 0 < x) : 0 < xs.sum :=
  lt_of_lt_of_le hxpos (List.single_le_sum hnn x hx)

/-- A column with two distinct values has positive population variance. -/
theorem listVar_pos (xs : List ℚ) (a b : ℚ) (ha : a ∈ xs) (hb : b ∈ xs)
    (hab : a ≠ b) : 0 < listVar xs := by
  have hne : xs ≠ [] := by rintro rfl; exact (List.not_mem_nil a) ha
  have hn : (0 : ℚ) < xs.length := by
    exact_mod_cast List.length_pos.mpr hne
  have key : ∃ c ∈ xs, c ≠ listMean xs := by
    by_cases hA : a = listMean xs
    · exact ⟨b, hb, fun hB => hab (hA.trans hB.symm)⟩
    · exact ⟨a, ha, hA⟩
  obtain ⟨c, hc, hcne⟩ := key
  have hmem : (c - listMean xs) ^ 2 ∈ xs.map (fun x => (x - listMean xs) ^ 2) :=
    List.mem_map_of_mem _ hc
  have hpos : 0 < (c - listMean xs) ^ 2 :=
    pow_two_pos_of_ne_zero (sub_ne_zero.mpr hcne)
  have hsum : 0 < (xs.map (fun x => (x - listMean xs) ^ 2)).sum :=
    sum_pos_of_mem_pos _ (by intro x hx; obtain ⟨u, _, rfl⟩ := List.mem_map.mp hx; positivity)
      _ hmem hpos
  exact div_pos hsum hn

/-- The standardized column sums to zero whenever `σ ≠ 0`. -/
theorem standardizeCol_sum (xs : List ℚ) (σ : ℚ) (h : xs ≠ []) :
    (standardizeCol σ xs).sum = 0 := by
  unfold standardizeCol
  rw [sum_map_div (fun x => x - listMean xs) σ xs, sum_centered xs h]
  simp

/-- Sum of squares of a list. -/
def sumSq (xs : List ℚ) : ℚ := (xs.map (fun x => x ^ 2)).sum

/-- The sum of squared deviations equals `n` times the population variance. -/
theorem sum_sq_dev_eq (xs : List ℚ) (h : xs ≠ []) :
    (xs.map (fun x => (x - listMean xs) ^ 2)).sum = xs.length * listVar xs := by
  have hn : (xs.length : ℚ) ≠ 0 := by
    exact_mod_cast Nat.cast_ne_zero.mpr (List.length_pos.mpr h).ne'
  rw [listVar]
  field_simp

/-- Sum of squares of the standardized column equals the row count, when `σ`
is a genuine square root of the (positive) variance. -/
theorem standardizeCol_sumSq (xs : List ℚ) (σ : ℚ) (h : xs ≠ [])
    (hvar : 0 < listVar xs) (hσ : σ * σ = listVar xs) :
    sumSq (standardizeCol σ xs) = xs.length := by
  have hσne : σ ≠ 0 := by
    intro h0; rw [h0, mul_zero] at hσ; exact absurd hσ.symm (ne_of_gt hvar)
  unfold sumSq standardizeCol
  rw [List.map_map]
  have heq : ((fun x => x ^ 2) ∘ fun x => (x - listMean xs) / σ) =
      fun x => ((x - listMean xs) ^ 2) / (σ * σ) := by
    funext x
    simp [Function.comp, div_pow, sq]
    ring
  rw [heq]
  rw [sum_map_div (fun x => (x - listMean xs) ^ 2) (σ * σ) xs]
  rw [sum_sq_dev_eq xs h, hσ]
  field_simp [ne_of_gt hvar]

/-! ### StandardScaler on matrices

A data matrix is a list of rows. `getCol` extracts feature `j`;
`fitScaler` computes the per-column mean and population variance, exactly the
statistics `StandardScaler.fit` stores (`mean_` and `var_`; `scale_` is the
square root of `var_`, supplied here through the parameter `sq`). -/

/-- Column `j` of a row-major matrix. -/
def getCol (X : List (List ℚ)) (j : ℕ) : List ℚ := X.map (fun r => r.getD j 0)

/-- Number of feature columns (length of the first row). -/
def matWidth (X : List (List ℚ)) : ℕ := (X.headD []).length

/-- Fitted statistics of a `StandardScaler`: per-column mean and variance. -/
structure ScalerStats where
  means : List ℚ
  vars : List ℚ
deriving DecidableEq, Repr

/-- Model of `StandardScaler.fit`: record each column's mean and population variance. -/
def fitScaler (X : List (List ℚ)) : ScalerStats :=
  { means := (List.range (matWidth X)).map (fun j => listMean (getCol X j)),
    vars := (List.range (matWidth X)).map (fun j => listVar (getCol X j)) }

/-- Model of `StandardScaler.transform` on one row: entry `j` becomes
`(x - mean_j) / sq var_j`. -/
def transformRow (sq : ℚ → ℚ) (st : ScalerStats) (row : List ℚ) : List ℚ :=
  (List.range row.length).map
    (fun j => (row.getD j 0 - st.means.getD j 0) / sq (st.vars.getD j 0))

/-- Model of `StandardScaler.transform` on a matrix (rows transformed independently
using the fitted statistics `st`, which it does not modify). -/
def scalerTransformMat (sq : ℚ → ℚ) (st : ScalerStats) (X : List (List ℚ)) :
    List (List ℚ) :=
  X.map (transformRow sq st)

/-- Model of `StandardScaler.fit_transform`: fit on `X`, then transform `X`. -/
def scalerFitTransform (sq : ℚ → ℚ) (X : List (List ℚ)) : List (List ℚ) :=
  scalerTransformMat sq (fitScaler X) X

/-- Column `j` of the fit-transformed matrix is the standardized column `j`
of the input, when all rows have width `w` and `j < w`. -/
theorem getCol_scalerFitTransform (sq : ℚ → ℚ) (X : List (List ℚ)) (w j : ℕ)
    (hw : ∀ r ∈ X, r.length = w) (hj : j < w) :
    getCol (scalerFitTransform sq X) j =
      standardizeCol (sq (listVar (getCol X j))) (getCol X j) := by
  unfold scalerFitTransform scalerTransformMat getCol standardizeCol
  rw [List.map_map, List.map_map]
  apply List.map_congr_left
  intro r hr
  simp only [Function.comp]
  unfold transformRow
  rw [hw r hr]
  rw [List.getD_eq_getElem?_getD]
  rw [List.getElem?_map]
  have hjr : j < (List.range w).length := by simpa using hj
  rw [List.getElem?_eq_getElem hjr]
  simp only [List.getElem_range, Option.map_some', Option.getD_some]
  unfold fitScaler
  have hmw : matWidth X = w ∨ X = [] := by
    cases X with
    | nil => right; rfl
    | cons r0 rs => left; exact hw r0 (by simp) ▸ rfl
  rcases hmw with hmw | hmw
  · rw [hmw]
    simp only [List.getD_eq_getElem?_getD, List.getElem?_map,
      List.getElem?_eq_getElem hjr, List.getElem_range, Option.map_some',
      Option.getD_some]
    simp [getCol, List.getD_eq_getElem?_getD]
  · exact absurd hr (by simp [hmw])

/-- C3: standardization zero-centers and unit-scales a column.  For every
training matrix whose rows all have width `w` and whose column `j` holds at
least two distinct values, column `j` of `ss.fit_transform(X_train)` sums to
zero and its sum of squares equals the row count, where `sq` supplies the
library's square root of the (positive) column variance. -/
theorem C3_standardization_zero_mean_unit_variance
    (X : List (List ℚ)) (sq : ℚ → ℚ) (w j : ℕ)
    (hw : ∀ r ∈ X, r.length = w) (hj : j < w)
    (a b : ℚ) (ha : a ∈ getCol X j) (hb : b ∈ getCol X j) (hab : a ≠ b)
    (hσ : sq (listVar (getCol X j)) * sq (listVar (getCol X j)) =
      listVar (getCol X j)) :
    (getCol (scalerFitTransform sq X) j).sum = 0 ∧
    sumSq (getCol (scalerFitTransform sq X) j) = X.length := by
  have hne : getCol X j ≠ [] := by rintro h0; rw [h0] at ha; exact (List.not_mem_nil a) ha
  have hvar : 0 < listVar (getCol X j) := listVar_pos _ a b ha hb hab
  have hlen : (getCol X j).length = X.length := by simp [getCol]
  rw [getCol_scalerFitTransform sq X w j hw hj]
  refine ⟨standardizeCol_sum _ _ hne, ?_⟩
  rw [standardizeCol_sumSq _ _ hne hvar hσ, hlen]

/-- Witness for C3 at `X = [[1],[3]]` (single column, variance 1, `sq` the
constant function 1). -/
theorem C3_standardization_zero_mean_unit_variance_witness :
    (getCol (scalerFitTransform (fun _ => 1) [[(1 : ℚ)], [3]]) 0).sum = 0 ∧
    sumSq (getCol (scalerFitTransform (fun _ => 1) [[(1 : ℚ)], [3]]) 0) =
      ([[(1 : ℚ)], [3]] : List (List ℚ)).length :=
  C3_standardization_zero_mean_unit_variance [[(1 : ℚ)], [3]] (fun _ => 1) 1 0
    (by simp) (by decide) 1 3 (by simp [getCol]) (by simp [getCol])
    (by norm_num) (by norm_num [listVar, listMean, getCol])

/-! ### Linear regression (sklearn `LinearRegression`, 4 features + intercept)

The StandardScaling notebook regresses a 4-column feature matrix on a target
with `fit_intercept=True`.  In exact arithmetic this is the least-squares
solution of the normal equations on the 5-column design matrix `[1 | X]`;
when the 5×5 normal matrix is invertible the unique solution is given by
Cramer's rule.  `olsFit` returns `none` in the degenerate case. -/

/-- Determinant of a 2×2 matrix. -/
def det2 (a b c d : ℚ) : ℚ := a * d - b * c

/-- Determinant of a 3×3 matrix by cofactor expansion along the first row. -/
def det3 (a b c d e f g h i : ℚ) : ℚ :=
  a * det2 e f h i - b * det2 d f g i + c * det2 d e g h

/-- Determinant of a 4×4 matrix by cofactor expansion along the first row. -/
def det4 (a b c d e f g h i j k l m n o p : ℚ) : ℚ :=
  a * det3 f g h j k l n o p - b * det3 e g h i k l m o p +
  c * det3 e f h i j l m n p - d * det3 e f g i j k m n o

/-- Determinant of a 5×5 matrix (entries given as a function) by cofactor expansion. -/
def det5 (v : ℕ → ℕ → ℚ) : ℚ :=
  v 0 0 * det4 (v 1 1) (v 1 2) (v 1 3) (v 1 4) (v 2 1) (v 2 2) (v 2 3) (v 2 4)
               (v 3 1) (v 3 2) (v 3 3) (v 3 4) (v 4 1) (v 4 2) (v 4 3) (v 4 4) -
  v 0 1 * det4 (v 1 0) (v 1 2) (v 1 3) (v 1 4) (v 2 0) (v 2 2) (v 2 3) (v 2 4)
               (v 3 0) (v 3 2) (v 3 3) (v 3 4) (v 4 0) (v 4 2) (v 4 3) (v 4 4) +
  v 0 2 * det4 (v 1 0) (v 1 1) (v 1 3) (v 1 4) (v 2 0) (v 2 1) (v 2 3) (v 2 4)
               (v 3 0) (v 3 1) (v 3 3) (v 3 4) (v 4 0) (v 4 1) (v 4 3) (v 4 4) -
  v 0 3 * det4 (v 1 0) (v 1 1) (v 1 2) (v 1 4) (v 2 0) (v 2 1) (v 2 2) (v 2 4)
               (v 3 0) (v 3 1) (v 3 2) (v 3 4) (v 4 0) (v 4 1) (v 4 2) (v 4 4) +
  v 0 4 * det4 (v 1 0) (v 1 1) (v 1 2) (v 1 3) (v 2 0) (v 2 1) (v 2 2) (v 2 3)
               (v 3 0) (v 3 1) (v 3 2) (v 3 3) (v 4 0) (v 4 1) (v 4 2) (v 4 3)

/-- Entry `(i, j)` of a row-major matrix. -/
def entry (A : List (List ℚ)) (i j : ℕ) : ℚ := (A.getD i []).getD j 0

/-- Determinant of a 5×5 row-major matrix. -/
def detMat5 (A : List (List ℚ)) : ℚ := det5 (entry A)

/-- Dot product of two lists (over the common prefix). -/
def dotL (a b : List ℚ) : ℚ := ((a.zip b).map (fun p => p.1 * p.2)).sum

/-- Normal matrix `Dᵀ D` of a 5-column design matrix `D` (rows `Xi`). -/
def gram5 (Xi : List (List ℚ)) : List (List ℚ) :=
  ([0, 1, 2, 3, 4] : List ℕ).map (fun i =>
    ([0, 1, 2, 3, 4] : List ℕ).map (fun j =>
      (Xi.map (fun r => r.getD i 0 * r.getD j 0)).sum))

/-- Right-hand side `Dᵀ y` of the normal equations. -/
def rhs5 (Xi : List (List ℚ)) (y : List ℚ) : List ℚ :=
  ([0, 1, 2, 3, 4] : List ℕ).map (fun i =>
    ((Xi.zip y).map (fun p => p.1.getD i 0 * p.2)).sum)

/-- Replace column `j` of a square matrix by the vector `b` (Cramer). -/
def replaceCol (G : List (List ℚ)) (j : ℕ) (b : List ℚ) : List (List ℚ) :=
  (G.zip b).map (fun p => p.1.set j p.2)

/-- Model of `LinearRegression().fit(X, y)` for a 4-feature matrix: least squares on
the design matrix `[1 | X]`, solved by Cramer's rule on the normal equations;
`none` when the normal matrix is singular.  The returned list is
`[intercept_, coef_0, coef_1, coef_2, coef_3]`. -/
def olsFit (X : List (List ℚ)) (y : List ℚ) : Option (List ℚ) :=
  let Xi := X.map (fun r => 1 :: r)
  let G := gram5 Xi
  let b := rhs5 Xi y
  if detMat5 G = 0 then none
  else some (([0, 1, 2, 3, 4] : List ℕ).map
    (fun j => detMat5 (replaceCol G j b) / detMat5 G))

/-- Model of `linear.predict` on one feature row. -/
def predictRow (coef : List ℚ) (r : List ℚ) : ℚ := dotL coef (1 :: r)

/-- Model of `mean_squared_error(y_test, y_pred)`; the notebook prints its square
root as RMSE. -/
def mseOf (yt yp : List ℚ) : ℚ :=
  listMean ((yt.zip yp).map (fun p => (p.1 - p.2) ^ 2))

/-! ### train_test_split and the StandardScaling notebook (part_000)

`train_test_split(X, y, test_size=0.3)` draws a fresh permutation of the row
indices from the global RNG (no `random_state` is passed anywhere in the
notebook), takes the first `⌈0.3 n⌉` permuted indices as the test fold and
the remaining indices as the train fold.  The permutation is the explicit
`perm` parameter of the embedding. -/

/-- Test-fold size `⌈0.3 n⌉` used by `test_size=0.3`. -/
def nTestSplit (n : ℕ) : ℕ := (3 * n + 9) / 10

/-- Select rows of a matrix by index list. -/
def selectRows (X : List (List ℚ)) (idxs : List ℕ) : List (List ℚ) :=
  idxs.map (fun i => X.getD i [])

/-- Select entries of a vector by index list. -/
def selectVals (y : List ℚ) (idxs : List ℕ) : List ℚ :=
  idxs.map (fun i => y.getD i 0)

/-- Model of `train_test_split(X, y, test_size=0.3)` under RNG permutation `perm`:
returns `(X_train, X_test, y_train, y_test)` in the notebook's unpacking
order. -/
def trainTestSplit (X : List (List ℚ)) (y : List ℚ) (perm : List ℕ) :
    List (List ℚ) × List (List ℚ) × List ℚ × List ℚ :=
  let k := nTestSplit X.length
  (selectRows X (perm.drop k), selectRows X (perm.take k),
   selectVals y (perm.drop k), selectVals y (perm.take k))

/-- Line 40, `X = df.iloc[:, :4]`: the first four columns of the loaded table. -/
def featX (df : List (List ℚ)) : List (List ℚ) := df.map (fun r => r.take 4)

/-- Line 41, `y = df.iloc[:, 4]`: the fifth column of the loaded table. -/
def targY (df : List (List ℚ)) : List ℚ := df.map (fun r => r.getD 4 0)

/-- The baseline cell (source lines 42–46): split under `perm`, fit a plain
linear regression on the train fold, return the printed `mean_squared_error`
on the test fold (the notebook prints its square root). -/
def baselineMSE (df : List (List ℚ)) (perm : List ℕ) : Option ℚ :=
  let s := trainTestSplit (featX df) (targY df) perm
  (olsFit s.1 s.2.2.1).map
    (fun c => mseOf s.2.2.2 (s.2.1.map (predictRow c)))

/-- Program state across the standardization cells of the notebook. -/
structure SSState where
  Xtrain : List (List ℚ)
  Xtest : List (List ℚ)
  ytrain : List ℚ
  ytest : List ℚ
  ss : Option ScalerStats
  XtrainSS : Option (List (List ℚ))
  coef : Option (List ℚ)

/-- Line 69: `X_train, X_test, y_train, y_test = train_test_split(X, y,
test_size=0.3)` (second split, fresh RNG permutation `perm`). -/
def opSplit (X : List (List ℚ)) (y : List ℚ) (perm : List ℕ) : SSState :=
  let s := trainTestSplit X y perm
  { Xtrain := s.1, Xtest := s.2.1, ytrain := s.2.2.1, ytest := s.2.2.2,
    ss := none, XtrainSS := none, coef := none }

/-- Line 71: `ss = StandardScaler()` (unfitted scaler). -/
def opNewScaler (s : SSState) : SSState := { s with ss := none }

/-- Line 73: `X_train_ss = ss.fit_transform(X_train)`: the scaler's
statistics are computed from `X_train` alone and stored in `ss`. -/
def opFitTransform (sq : ℚ → ℚ) (s : SSState) : SSState :=
  let st := fitScaler s.Xtrain
  { s with ss := some st, XtrainSS := some (scalerTransformMat sq st s.Xtrain) }

/-- Line 75: `lr = linear_model.LinearRegression()`. -/
def opNewLR (s : SSState) : SSState := { s with coef := none }

/-- Line 76: `linear = lr.fit(X_train_ss, y_train)`. -/
def opFitLR (s : SSState) : SSState :=
  { s with coef := s.XtrainSS.bind (fun M => olsFit M s.ytrain) }

/-- The whole second cell (lines 69–76). -/
def cell2 (sq : ℚ → ℚ) (X : List (List ℚ)) (y : List ℚ) (perm : List ℕ) :
    SSState :=
  opFitLR (opNewLR (opFitTransform sq (opNewScaler (opSplit X y perm))))

/-- The third cell (lines 85–86): `y_pred = linear.predict(ss.transform(
X_test))` then the RMSE print.  Returns the scaler statistics actually
applied to `X_test`, the transformed test matrix, and the printed
`mean_squared_error`. -/
def cell3 (sq : ℚ → ℚ) (s : SSState) :
    Option ScalerStats × Option (List (List ℚ)) × Option ℚ :=
  match s.ss with
  | some st =>
    let Xts := scalerTransformMat sq st s.Xtest
    (some st, some Xts, s.coef.map (fun c => mseOf s.ytest (Xts.map (predictRow c))))
  | none => (none, none, none)

/-- C1: the StandardScaler fitted on the training fold is reused unmodified
for the test fold.  (i) The statistics applied by `ss.transform(X_test)` in
the third cell are exactly `fitScaler` of the training fold produced by the
second cell's split; (ii) the two operations between the fit and the
test-fold transform (`lr = LinearRegression()`, `linear = lr.fit(...)`) do
not change the scaler field of the state; (iii) the fitted statistics do not
depend on the test fold: any dataset/permutation producing the same training
fold yields identical applied statistics, whatever its test fold. -/
theorem C1_scaler_fitted_on_train_reused_for_test
    (sq : ℚ → ℚ) (X : List (List ℚ)) (y : List ℚ) (perm : List ℕ) :
    (cell3 sq (cell2 sq X y perm)).1 =
      some (fitScaler (trainTestSplit X y perm).1) ∧
    (∀ s : SSState, (opNewLR s).ss = s.ss ∧ (opFitLR s).ss = s.ss) ∧
    (∀ (X' : List (List ℚ)) (y' : List ℚ) (perm' : List ℕ),
      (trainTestSplit X' y' perm').1 = (trainTestSplit X y perm).1 →
      (cell3 sq (cell2 sq X' y' perm')).1 = (cell3 sq (cell2 sq X y perm)).1) := by
  refine ⟨?_, fun s => ⟨rfl, rfl⟩, ?_⟩
  · simp [cell3, cell2, opFitLR, opNewLR, opFitTransform, opNewScaler, opSplit]
  · intro X' y' perm' h
    simp [cell3, cell2, opFitLR, opNewLR, opFitTransform, opNewScaler, opSplit, h]

/-- Witness for C1: two datasets sharing the training fold `[[3]]` (under the
identity permutation, test-fold size 1) but with different test rows `[[1]]`
and `[[5]]` yield the same applied scaler statistics. -/
theorem C1_scaler_fitted_on_train_reused_for_test_witness :
    (cell3 (fun _ => 1) (cell2 (fun _ => 1) [[(1 : ℚ)], [3]] [0, 0] [0, 1])).1 =
      some (fitScaler (trainTestSplit [[(1 : ℚ)], [3]] [0, 0] [0, 1]).1) ∧
    (cell3 (fun _ => 1) (cell2 (fun _ => 1) [[(5 : ℚ)], [3]] [0, 0] [0, 1])).1 =
      (cell3 (fun _ => 1) (cell2 (fun _ => 1) [[(1 : ℚ)], [3]] [0, 0] [0, 1])).1 := by
  have h := C1_scaler_fitted_on_train_reused_for_test (fun _ => 1)
    [[(1 : ℚ)], [3]] [0, 0] [0, 1]
  exact ⟨h.1, h.2.2 [[(5 : ℚ)], [3]] [0, 0] [0, 1] rfl⟩

/-! ### A concrete CSV content and RNG permutations exhibiting C10 -/

/-- A 10-row table (4 features and a target) standing for the contents of
`data/powerplant.csv` in the C10 nondeterminism scenario: the target is the
exact linear function `x1 + 2 x2 - x3 + x4 + 5` of the features on the first
nine rows, and is 9 above that value on the last row. -/
def sampleCSV : List (List ℚ) :=
  [[1, 0, 2, 1, 5],
   [0, 1, 1, 3, 9],
   [2, 1, 0, 1, 10],
   [1, 2, 1, 0, 9],
   [3, 0, 1, 2, 9],
   [0, 2, 3, 1, 7],
   [2, 3, 1, 1, 13],
   [1, 1, 4, 2, 6],
   [4, 1, 0, 3, 14],
   [2, 2, 2, 2, 20]]

/-- RNG permutation drawn by the first `train_test_split` of one run
(test fold = rows 9, 0, 1). -/
def permFirst : List ℕ := [9, 0, 1, 2, 3, 4, 5, 6, 7, 8]

/-- RNG permutation drawn by a later `train_test_split` (test fold =
rows 0, 1, 2). -/
def permSecond : List ℕ := [0, 1, 2, 3, 4, 5, 6, 7, 8, 9]

/-- C10: the two printed RMSE values come from independently drawn splits
and the output is not a deterministic function of the input file.  There is
a CSV content and RNG draws such that (i) within one run the baseline and
the standardized model are scored on different test folds (the second
`train_test_split` carries no fixed seed), and (ii) two runs of the notebook
on the same CSV print different baseline mean-squared errors, hence
different RMSE values. -/
theorem C10_printed_rmse_not_deterministic :
    ∃ (df : List (List ℚ)) (p1 p2 q1 : List ℕ),
      (trainTestSplit (featX df) (targY df) p1).2.1 ≠
        (trainTestSplit (featX df) (targY df) p2).2.1 ∧
      ∃ m m' : ℚ, baselineMSE df p1 = some m ∧ baselineMSE df q1 = some m' ∧
        m ≠ m' ∧ Real.sqrt (m : ℝ) ≠ Real.sqrt ((m' : ℝ)) := by
  refine ⟨sampleCSV, permFirst, permSecond, permSecond, ?_, 27,
    1735155 / 625681, ?_, ?_, by norm_num, ?_⟩
  · norm_num [trainTestSplit, featX, targY, sampleCSV, permFirst, permSecond,
      selectRows, selectVals, nTestSplit]
  · norm_num [baselineMSE, sampleCSV, permFirst, featX, targY, nTestSplit,
      selectRows, selectVals, trainTestSplit, olsFit, gram5, rhs5, replaceCol,
      detMat5, det5, det4, det3, det2, entry, predictRow, dotL, mseOf, listMean]
  · norm_num [baselineMSE, sampleCSV, permSecond, featX, targY, nTestSplit,
      selectRows, selectVals, trainTestSplit, olsFit, gram5, rhs5, replaceCol,
      detMat5, det5, det4, det3, det2, entry, predictRow, dotL, mseOf, listMean]
  · have hlt : ((1735155 / 625681 : ℚ) : ℝ) < ((27 : ℚ) : ℝ) := by norm_num
    have hnn : (0 : ℝ) ≤ ((1735155 / 625681 : ℚ) : ℝ) := by norm_num
    exact (Real.sqrt_lt_sqrt hnn hlt).ne'

/-! ### k-means (second notebook of 05-Recommender-MatrixFac.ipynb) -/

/-- Squared Euclidean distance of two points (over the common prefix). -/
def sqDist (a b : List ℚ) : ℚ := ((a.zip b).map (fun p => (p.1 - p.2) ^ 2)).sum

/-- Auxiliary scan for `argminIdx`: current position `i`, best value `bv` at
index `best`; strict `<` keeps the first minimum on ties (numpy `argmin`). -/
def argminAux : List ℚ → ℕ → ℚ → ℕ → ℕ
  | [], _, _, best => best
  | d :: ds, i, bv, best =>
    if d < bv then argminAux ds (i + 1) d i else argminAux ds (i + 1) bv best

/-- Index of the smallest entry of a list (first on ties; 0 for `[]`). -/
def argminIdx : List ℚ → ℕ
  | [] => 0
  | d :: ds => argminAux ds 1 d 0

/-- Modelled from the spec: `KMeans(n_clusters=k).fit_predict(X)` is sklearn
library code, not part of this repository.  The spec's glossary defines
k-means as "partitioning data into k clusters minimizing within-cluster
variance"; sklearn's k-means++ initialization places the k centers on k
distinct data points and the implementation keeps every cluster non-empty.
The model takes k distinct rows of the data as centers and assigns every row
the index of its nearest center. -/
def kmeansFitPredict (k : ℕ) (rows : List (List ℚ)) : List ℕ :=
  let centers := rows.dedup.take k
  rows.map (fun r => argminIdx (centers.map (sqDist r)))

theorem sqDist_nonneg (a b : List ℚ) : 0 ≤ sqDist a b := by
  apply List.sum_nonneg
  intro x hx
  obtain ⟨p, _, rfl⟩ := List.mem_map.mp hx
  positivity

theorem sqDist_self (a : List ℚ) : sqDist a a = 0 := by
  induction a with
  | nil => rfl
  | cons x t ih => simp [sqDist] at *; exact ih

theorem sqDist_pos (a b : List ℚ) (hlen : a.length = b.length) (hne : a ≠ b) :
    0 < sqDist a b := by
  induction a generalizing b with
  | nil =>
    cases b with
    | nil => exact absurd rfl hne
    | cons y t => simp at hlen
  | cons x t ih =>
    cases b with
    | nil => simp at hlen
    | cons y u =>
      simp only [List.length_cons, Nat.succ.injEq] at hlen
      by_cases hxy : x = y
      · subst hxy
        have htu : t ≠ u := by rintro rfl; exact hne rfl
        have := ih u hlen htu
        simp only [sqDist, List.zip_cons_cons, List.map_cons, List.sum_cons]
        have hx0 : (x - x) ^ 2 = 0 := by ring
        rw [hx0, zero_add]
        exact this
      · simp only [sqDist, List.zip_cons_cons, List.map_cons, List.sum_cons]
        have h1 : 0 < (x - y) ^ 2 := pow_two_pos_of_ne_zero (sub_ne_zero.mpr hxy)
        have h2 : 0 ≤ sqDist t u := sqDist_nonneg t u
        unfold sqDist at h2
        linarith

/-- The scan of `argminAux` stays below `n` when the running best does and
all remaining positions do. -/
theorem argminAux_lt (ds : List ℚ) (i : ℕ) (bv : ℚ) (best : ℕ) (n : ℕ)
    (hbest : best < n) (hi : i + ds.length ≤ n) :
    argminAux ds i bv best < n := by
  induction ds generalizing i bv best with
  | nil => simpa [argminAux] using hbest
  | cons d t ih =>
    simp only [argminAux]
    by_cases hlt : d < bv
    · rw [if_pos hlt]
      exact ih (i + 1) d i (by simp at hi; omega) (by simp at hi; omega)
    · rw [if_neg hlt]
      exact ih (i + 1) bv best hbest (by simp at hi; omega)

theorem argminIdx_lt (ds : List ℚ) (h : ds ≠ []) : argminIdx ds < ds.length := by
  cases ds with
  | nil => exact absurd rfl h
  | cons d t =>
    simp only [argminIdx, List.length_cons]
    exact argminAux_lt t 1 d 0 _ (Nat.succ_pos _) (by omega)

/-- C4: k-means with `n_clusters=3` on a table with at least 3 distinct rows
(all of width `w`) returns one label per row, every label lies in
`{0, 1, 2}`, and each of the three labels is assigned to at least one row
(so each per-cluster price-mean group in the notebook is non-empty). -/
theorem C4_kmeans_returns_exactly_k_labels (rows : List (List ℚ)) (w : ℕ)
    (hw : ∀ r ∈ rows, r.length = w) (hd : 3 ≤ rows.dedup.length) :
    (kmeansFitPredict 3 rows).length = rows.length ∧
    (∀ l ∈ kmeansFitPredict 3 rows, l < 3) ∧
    (∀ j : ℕ, j < 3 → 0 < (kmeansFitPredict 3 rows).count j) := by
  have hclen : (rows.dedup.take 3).length = 3 := by
    rw [List.length_take]
    omega
  have hcsub : List.Sublist (rows.dedup.take 3) rows :=
    (List.take_sublist 3 rows.dedup).trans (List.dedup_sublist rows)
  have hcnodup : (rows.dedup.take 3).Nodup :=
    (List.take_sublist 3 rows.dedup).nodup (List.nodup_dedup rows)
  obtain ⟨c0, c1, c2, hcs⟩ := List.length_eq_three.mp hclen
  refine ⟨by simp [kmeansFitPredict], ?_, ?_⟩
  · intro l hl
    obtain ⟨r, _, rfl⟩ := List.mem_map.mp hl
    have h3 : ((rows.dedup.take 3).map (sqDist r)).length = 3 := by
      rw [List.length_map]; exact hclen
    have hne : (rows.dedup.take 3).map (sqDist r) ≠ [] := by
      intro h0; rw [h0] at h3; simp at h3
    have := argminIdx_lt _ hne
    omega
  · intro j hj
    rw [List.count_pos_iff]
    have hnodup3 : c0 ≠ c1 ∧ c0 ≠ c2 ∧ c1 ≠ c2 := by
      have := hcnodup
      rw [hcs] at this
      simp [List.nodup_cons] at this
      exact ⟨this.1.1, this.1.2, this.2⟩
    have hmem : ∀ c ∈ rows.dedup.take 3, c ∈ rows := fun c hc => hcsub.mem hc
    have hm0 : c0 ∈ rows := hmem c0 (by rw [hcs]; simp)
    have hm1 : c1 ∈ rows := hmem c1 (by rw [hcs]; simp)
    have hm2 : c2 ∈ rows := hmem c2 (by rw [hcs]; simp)
    have hw0 := hw c0 hm0
    have hw1 := hw c1 hm1
    have hw2 := hw c2 hm2
    -- the row equal to center j gets label j
    interval_cases j
    · have : argminIdx ((rows.dedup.take 3).map (sqDist c0)) = 0 := by
        rw [hcs]
        simp only [List.map_cons, List.map_nil, argminIdx, argminAux]
        rw [sqDist_self]
        have h1 : 0 < sqDist c0 c1 :=
          sqDist_pos c0 c1 (hw0.trans hw1.symm) hnodup3.1
        have h2 : 0 < sqDist c0 c2 :=
          sqDist_pos c0 c2 (hw0.trans hw2.symm) hnodup3.2.1
        rw [if_neg (by linarith), if_neg (by linarith)]
      exact this ▸ List.mem_map_of_mem _ hm0
    · have : argminIdx ((rows.dedup.take 3).map (sqDist c1)) = 1 := by
        rw [hcs]
        simp only [List.map_cons, List.map_nil, argminIdx, argminAux]
        rw [sqDist_self]
        have h1 : 0 < sqDist c1 c0 :=
          sqDist_pos c1 c0 (hw1.trans hw0.symm) (Ne.symm hnodup3.1)
        have h2 : 0 < sqDist c1 c2 :=
          sqDist_pos c1 c2 (hw1.trans hw2.symm) hnodup3.2.2
        rw [if_pos h1, if_neg (by linarith)]
      exact this ▸ List.mem_map_of_mem _ hm1
    · have : argminIdx ((rows.dedup.take 3).map (sqDist c2)) = 2 := by
        rw [hcs]
        simp only [List.map_cons, List.map_nil, argminIdx, argminAux]
        rw [sqDist_self]
        have h1 : 0 < sqDist c2 c0 :=
          sqDist_pos c2 c0 (hw2.trans hw0.symm) (Ne.symm hnodup3.2.1)
        have h2 : 0 < sqDist c2 c1 :=
          sqDist_pos c2 c1 (hw2.trans hw1.symm) (Ne.symm hnodup3.2.2)
        by_cases h01 : sqDist c2 c1 < sqDist c2 c0
        · rw [if_pos h01, if_pos h2]
        · rw [if_neg h01, if_pos h1]
      exact this ▸ List.mem_map_of_mem _ hm2

/-- Witness for C4 at the three distinct one-dimensional rows
`[[0], [1], [2]]`. -/
theorem C4_kmeans_returns_exactly_k_labels_witness :
    (kmeansFitPredict 3 [[(0 : ℚ)], [1], [2]]).length =
      ([[(0 : ℚ)], [1], [2]] : List (List ℚ)).length ∧
    (∀ l ∈ kmeansFitPredict 3 [[(0 : ℚ)], [1], [2]], l < 3) ∧
    (∀ j : ℕ, j < 3 → 0 < (kmeansFitPredict 3 [[(0 : ℚ)], [1], [2]]).count j) := by
  have hnodup : ([[(0 : ℚ)], [1], [2]] : List (List ℚ)).Nodup := by norm_num
  exact C4_kmeans_returns_exactly_k_labels [[(0 : ℚ)], [1], [2]] 1
    (by norm_num) (by rw [List.dedup_eq_self.mpr hnodup]; simp)

/-! ### print_top_words (NMF notebook, source lines 175–183)

```python
def print_top_words(model, feature_names, n_top_words):
    for topic_idx, topic in enumerate(model.components_):
        message = "Topic #%d: " % topic_idx
        message += " ".join([feature_names[i]
                             for i in topic.argsort()[:-n_top_words - 1:-1]])
        print(message)
```

`topic.argsort()` is numpy's ascending argsort, modeled as a sort of the
index list by entry value (stable for definiteness; the proved properties
hold for any correct sort).  The slice `[:-n - 1:-1]` takes the last `n`
positions in reverse, i.e. `reverse.take n`.  A printed line is modeled as
the pair (topic index, list of selected feature names); `none` models the
run aborting with an `IndexError` from `feature_names[i]`. -/

/-- Ascending argsort of a row by entry value. -/
def argsort (xs : List ℚ) : List ℕ :=
  List.insertionSort (fun i j => xs.getD i 0 ≤ xs.getD j 0) (List.range xs.length)

/-- Model of `topic.argsort()[:-n_top_words - 1:-1]`: indices of the `n` largest
entries, largest first. -/
def topIndices (xs : List ℚ) (n : ℕ) : List ℕ := (argsort xs).reverse.take n

/-- Sequence a list of optional lookups; `none` as soon as one fails
(a Python list comprehension hitting an `IndexError`). -/
def mapOption (f : ℕ → Option String) : List ℕ → Option (List String)
  | [] => some []
  | a :: t =>
    match f a, mapOption f t with
    | some b, some bs => some (b :: bs)
    | _, _ => none

/-- The topic loop of `print_top_words`, carrying the running topic index. -/
def printTopics (names : List String) (n : ℕ) (idx : ℕ) :
    List (List ℚ) → Option (List (ℕ × List String))
  | [] => some []
  | row :: rest =>
    match mapOption (fun i => names.get? i) (topIndices row n),
      printTopics names n (idx + 1) rest with
    | some ns, some out => some ((idx, ns) :: out)
    | _, _ => none

/-- Model of `print_top_words(model, feature_names, n_top_words)`. -/
def print_top_words (model : List (List ℚ)) (names : List String) (n : ℕ) :
    Option (List (ℕ × List String)) :=
  printTopics names n 0 model

/-- The successful output: each topic row paired with its topic index and
the names of its top-`n` indices. -/
def expectedTopics (names : List String) (n : ℕ) (idx : ℕ) :
    List (List ℚ) → List (ℕ × List String)
  | [] => []
  | row :: rest =>
    (idx, (topIndices row n).map (fun i => names.getD i "")) ::
      expectedTopics names n (idx + 1) rest

theorem argsort_perm (xs : List ℚ) :
    (argsort xs).Perm (List.range xs.length) :=
  List.perm_insertionSort _ _

theorem mem_argsort_iff (xs : List ℚ) (i : ℕ) :
    i ∈ argsort xs ↔ i < xs.length := by
  rw [(argsort_perm xs).mem_iff, List.mem_range]

theorem argsort_sorted (xs : List ℚ) :
    (argsort xs).Sorted (fun i j => xs.getD i 0 ≤ xs.getD j 0) := by
  haveI : IsTotal ℕ (fun i j => xs.getD i 0 ≤ xs.getD j 0) :=
    ⟨fun a b => le_total _ _⟩
  haveI : IsTrans ℕ (fun i j => xs.getD i 0 ≤ xs.getD j 0) :=
    ⟨fun a b c hab hbc => le_trans hab hbc⟩
  exact List.sorted_insertionSort _ _

theorem argsort_reverse_sorted (xs : List ℚ) :
    ((argsort xs).reverse).Pairwise (fun i j => xs.getD j 0 ≤ xs.getD i 0) := by
  rw [List.pairwise_reverse]
  exact argsort_sorted xs

/-- Selected weights are non-increasing. -/
theorem topIndices_sorted (xs : List ℚ) (n : ℕ) :
    (topIndices xs n).Pairwise (fun i j => xs.getD j 0 ≤ xs.getD i 0) :=
  (argsort_reverse_sorted xs).sublist (List.take_sublist n _)

/-- Every selected index is an index of the row. -/
theorem topIndices_mem_lt (xs : List ℚ) (n : ℕ) (i : ℕ)
    (hi : i ∈ topIndices xs n) : i < xs.length := by
  rw [← mem_argsort_iff]
  have := (List.take_sublist n ((argsort xs).reverse)).mem hi
  exact List.mem_reverse.mp this

/-- The selection has `min n w` entries (in particular exactly
`n_top_words` when the row is at least that wide). -/
theorem topIndices_length (xs : List ℚ) (n : ℕ) :
    (topIndices xs n).length = min n xs.length := by
  rw [topIndices, List.length_take, List.length_reverse,
    (argsort_perm xs).length_eq, List.length_range]

/-- The selected indices are pairwise distinct. -/
theorem topIndices_nodup (xs : List ℚ) (n : ℕ) : (topIndices xs n).Nodup := by
  have h1 : (argsort xs).Nodup :=
    (argsort_perm xs).nodup_iff.mpr (List.nodup_range _)
  have h2 : ((argsort xs).reverse).Nodup := by rwa [List.nodup_reverse]
  exact (List.take_sublist n _).nodup h2

/-- The selection dominates every non-selected index: it is a set of
`n` largest entries. -/
theorem topIndices_top (xs : List ℚ) (n : ℕ) (i : ℕ) (hi : i ∈ topIndices xs n)
    (j : ℕ) (hj : j < xs.length) (hjn : j ∉ topIndices xs n) :
    xs.getD j 0 ≤ xs.getD i 0 := by
  have hjrev : j ∈ (argsort xs).reverse :=
    List.mem_reverse.mpr ((mem_argsort_iff xs j).mpr hj)
  have hsplit := List.take_append_drop n ((argsort xs).reverse)
  have hjdrop : j ∈ ((argsort xs).reverse).drop n := by
    rcases (List.mem_append.mp (hsplit ▸ hjrev)) with h | h
    · exact absurd h hjn
    · exact h
  have hpw := argsort_reverse_sorted xs
  rw [← hsplit] at hpw
  have := (List.pairwise_append.mp hpw).2.2
  exact this i hi j hjdrop

theorem mapOption_eq_some (f : ℕ → Option String) (g : ℕ → String)
    (l : List ℕ) (h : ∀ a ∈ l, f a = some (g a)) :
    mapOption f l = some (l.map g) := by
  induction l with
  | nil => rfl
  | cons a t ih =>
    simp only [mapOption, h a (by simp), ih (fun b hb => h b (by simp [hb])),
      List.map_cons]

theorem mapOption_eq_none (f : ℕ → Option String) (l : List ℕ) (a : ℕ)
    (ha : a ∈ l) (hfa : f a = none) : mapOption f l = none := by
  induction l with
  | nil => exact absurd ha (List.not_mem_nil a)
  | cons b t ih =>
    rcases List.mem_cons.mp ha with rfl | ha'
    · simp [mapOption, hfa]
    · simp only [mapOption, ih ha']
      cases f b <;> rfl

theorem printTopics_eq_expected (names : List String) (n : ℕ) (idx : ℕ)
    (model : List (List ℚ))
    (hvalid : ∀ row ∈ model, row.length ≤ names.length) :
    printTopics names n idx model = some (expectedTopics names n idx model) := by
  induction model generalizing idx with
  | nil => rfl
  | cons row rest ih =>
    have hrow : ∀ i ∈ topIndices row n,
        names.get? i = some (names.getD i "") := by
      intro i hi
      have hi' : i < names.length :=
        lt_of_lt_of_le (topIndices_mem_lt row n i hi) (hvalid row (by simp))
      rw [List.getD_eq_getElem?_getD, List.get?_eq_getElem?,
        List.getElem?_eq_getElem hi']
      simp
    simp only [printTopics,
      mapOption_eq_some (fun i => names.get? i) (fun i => names.getD i "")
        _ hrow, expectedTopics]
    rw [ih (idx + 1) (fun r hr => hvalid r (by simp [hr]))]

theorem printTopics_eq_none (names : List String) (n : ℕ) (idx : ℕ)
    (model : List (List ℚ)) (row : List ℚ) (hrow : row ∈ model) (i : ℕ)
    (hi : i ∈ topIndices row n) (hbad : names.length ≤ i) :
    printTopics names n idx model = none := by
  induction model generalizing idx with
  | nil => exact absurd hrow (List.not_mem_nil row)
  | cons r rest ih =>
    rcases List.mem_cons.mp hrow with rfl | hrow'
    · have : names.get? i = none := by
        rw [List.get?_eq_getElem?, List.getElem?_eq_none hbad]
      simp only [printTopics, mapOption_eq_none _ _ i hi this]
    · simp only [printTopics]
      rw [ih (idx + 1) hrow']
      cases mapOption (fun i => names.get? i) (topIndices r n) <;> rfl

/-- C9 counterexample: with vocabulary `["a"]` (length 1) shorter than the
components' width 2 and `n_top_words = 1`, `print_top_words` succeeds —
the selected top index 0 is in range, so `feature_names[i]` does not fail.
This refutes the claim's final clause that a short vocabulary makes the
indexing fail. -/
theorem C9_short_vocabulary_can_still_succeed :
    print_top_words [[(5 : ℚ), 0]] ["a"] 1 = some [(0, ["a"])] ∧
    (["a"] : List String).length < ([(5 : ℚ), 0] : List ℚ).length := by
  refine ⟨?_, by simp⟩
  norm_num [print_top_words, printTopics, topIndices, argsort, mapOption,
    List.insertionSort, List.orderedInsert, List.range_succ]

/-- C9 (amended): provided every index of a topic row is a valid index into
`feature_names`, `print_top_words` prints, for every topic row, exactly the
feature names of the `n_top_words` largest entries (pairwise-distinct
indices, `min n w` of them), in non-increasing order of their weights,
preceded by the topic index; and the indexing `feature_names[i]` fails
exactly when a selected top index falls outside the vocabulary. -/
theorem C9_print_top_words_prints_top_ranked_names
    (model : List (List ℚ)) (names : List String) (n : ℕ)
    (hvalid : ∀ row ∈ model, row.length ≤ names.length) :
    print_top_words model names n = some (expectedTopics names n 0 model) ∧
    (∀ row ∈ model,
      (topIndices row n).length = min n row.length ∧
      (topIndices row n).Nodup ∧
      (topIndices row n).Pairwise (fun i j => row.getD j 0 ≤ row.getD i 0) ∧
      (∀ i ∈ topIndices row n, ∀ j, j < row.length → j ∉ topIndices row n →
        row.getD j 0 ≤ row.getD i 0)) ∧
    (∀ (other : List (List ℚ)) (row : List ℚ), row ∈ other →
      ∀ i ∈ topIndices row n, names.length ≤ i →
      print_top_words other names n = none) := by
  refine ⟨printTopics_eq_expected names n 0 model hvalid, ?_, ?_⟩
  · intro row _
    exact ⟨topIndices_length row n, topIndices_nodup row n,
      topIndices_sorted row n, topIndices_top row n⟩
  · intro other row hrow i hi hbad
    exact printTopics_eq_none names n 0 other row hrow i hi hbad

/-- Witness for C9 at a single topic row `[1/2, 2, 0]` with vocabulary
`["a", "b", "c"]` and `n_top_words = 2`. -/
theorem C9_print_top_words_prints_top_ranked_names_witness :
    print_top_words [[(1 : ℚ)/2, 2, 0]] ["a", "b", "c"] 2 =
      some (expectedTopics ["a", "b", "c"] 2 0 [[(1 : ℚ)/2, 2, 0]]) ∧
    (∀ row ∈ ([[(1 : ℚ)/2, 2, 0]] : List (List ℚ)),
      (topIndices row 2).length = min 2 row.length ∧
      (topIndices row 2).Nodup ∧
      (topIndices row 2).Pairwise (fun i j => row.getD j 0 ≤ row.getD i 0) ∧
      (∀ i ∈ topIndices row 2, ∀ j, j < row.length → j ∉ topIndices row 2 →
        row.getD j 0 ≤ row.getD i 0)) ∧
    (∀ (other : List (List ℚ)) (row : List ℚ), row ∈ other →
      ∀ i ∈ topIndices row 2, (["a", "b", "c"] : List String).length ≤ i →
      print_top_words other ["a", "b", "c"] 2 = none) :=
  C9_print_top_words_prints_top_ranked_names [[(1 : ℚ)/2, 2, 0]]
    ["a", "b", "c"] 2 (by simp)

/-! ### PCA (second notebook of 05-Recommender-MatrixFac.ipynb, lines 337–360) -/

/-- Population variance of the projections of the rows of `X` onto `v`. -/
def projVar (X : List (List ℚ)) (v : List ℚ) : ℚ :=
  listVar (X.map (fun r => dotL r v))

/-- Modelled from the spec: `PCA(n_components=2).fit(X).components_` is
sklearn library code, not part of this repository.  The spec's glossary
defines PCA as "linear dimensionality reduction via orthogonal
variance-maximizing projections", and sklearn returns unit-norm component
rows.  `IsPCAComponents2 X C` says `C` is a possible `components_` matrix:
two unit rows, mutually orthogonal, the first maximizing projected variance
over unit directions and the second over unit directions orthogonal to the
first. -/
structure IsPCAComponents2 (X : List (List ℚ)) (C : List (List ℚ)) : Prop where
  rows2 : C.length = 2
  unit : ∀ c ∈ C, dotL c c = 1
  orth : dotL (C.getD 0 []) (C.getD 1 []) = 0
  firstMax : ∀ v : List ℚ, dotL v v = 1 → projVar X v ≤ projVar X (C.getD 0 [])
  secondMax : ∀ v : List ℚ, dotL v v = 1 → dotL v (C.getD 0 []) = 0 →
    projVar X v ≤ projVar X (C.getD 1 [])

/-- Product `A * Bᵀ` for row-major matrices (entry `(i, j)` is row `i` of `A` dotted
with row `j` of `B`). -/
def matMulT (A B : List (List ℚ)) : List (List ℚ) :=
  A.map (fun r => B.map (dotL r))

theorem dotL_comm (a b : List ℚ) : dotL a b = dotL b a := by
  induction a generalizing b with
  | nil => cases b <;> rfl
  | cons x t ih =>
    cases b with
    | nil => rfl
    | cons y u => simp [dotL] at *; rw [mul_comm]; rw [ih u]

/-- C8: PCA components are orthonormal — `components_` times its transpose
is the 2×2 identity for any matrix satisfying the PCA characterization. -/
theorem C8_pca_components_orthonormal (X C : List (List ℚ))
    (h : IsPCAComponents2 X C) :
    matMulT C C = [[1, 0], [0, 1]] := by
  obtain ⟨c0, c1, rfl⟩ := List.length_eq_two.mp h.rows2
  have h00 : dotL c0 c0 = 1 := h.unit c0 (by simp)
  have h11 : dotL c1 c1 = 1 := h.unit c1 (by simp)
  have h01 : dotL c0 c1 = 0 := h.orth
  have h10 : dotL c1 c0 = 0 := by rw [dotL_comm]; exact h01
  simp [matMulT, h00, h11, h01, h10]

/-- Witness for C8: the identity components on a single-row zero matrix
(every direction has projected variance 0, so the maximality conditions are
trivial). -/
theorem C8_pca_components_orthonormal_witness :
    matMulT [[(1 : ℚ), 0], [0, 1]] [[(1 : ℚ), 0], [0, 1]] = [[1, 0], [0, 1]] := by
  have hvar : ∀ v : List ℚ, projVar [[(0 : ℚ), 0]] v = 0 := by
    intro v
    have : dotL [(0 : ℚ), 0] v = 0 := by
      cases v with
      | nil => rfl
      | cons a t =>
        cases t with
        | nil => simp [dotL]
        | cons b u => simp [dotL]
    simp [projVar, this, listVar, listMean]
  exact C8_pca_components_orthonormal [[(0 : ℚ), 0]] [[(1 : ℚ), 0], [0, 1]]
    { rows2 := by simp
      unit := by
        intro c hc
        rcases List.mem_cons.mp hc with rfl | hc'
        · norm_num [dotL]
        · rcases List.mem_cons.mp hc' with rfl | hc''
          · norm_num [dotL]
          · exact absurd hc'' (List.not_mem_nil c)
      orth := by norm_num [dotL]
      firstMax := fun v _ => by rw [hvar v, hvar]
      secondMax := fun v _ _ => by rw [hvar v, hvar] }

/-! ### Step traces of the three notebooks

Each notebook is a linear script; its embedding as a step trace records, for
every top-level statement in source order: the pipeline phase, whether the
statement calls a stock estimator's `fit` (`lr.fit`, `NMF.fit`,
`KMeans.fit_predict`, `PCA.fit` — vectorizing, rescaling and one-hot
encoding are the claims' "transform columns" category), the variables it
reads and writes, and its external effects. -/

/-- Pipeline phase of a notebook statement. -/
inductive Phase
  | load
  | transform
  | fit
  | report
deriving DecidableEq, Repr

/-- External effect of a notebook statement.  `loadBundled` is a dataset
shipped inside the library package (`datasets.load_iris`), not an external
interface; `fileWrite`, `envRead` and `netOther` never occur in the traces
and exist so that their absence is expressible. -/
inductive Effect
  | readCSVFile (path : String) (relative : Bool)
  | fetchNetwork (corpus : String)
  | loadBundled (dataset : String)
  | consolePrint
  | inlinePlot
  | fileWrite (path : String)
  | envRead (varName : String)
  | netOther (url : String)
deriving DecidableEq, Repr

/-- One top-level notebook statement. -/
structure Step where
  tag : String
  phase : Phase
  fitsEstimator : Bool
  reads : List String
  writes : List String
  effects : List Effect
deriving DecidableEq, Repr

/-- Trace of `02b-Solution-StandardScaling` (src/unnamed/part_000,
code lines 39–47, 69–76, 85–86, 104). -/
def ssTrace : List Step :=
  [⟨"read_csv powerplant", .load, false, [], ["df"],
     [.readCSVFile "data/powerplant.csv" true]⟩,
   ⟨"X = df.iloc[:, :4]", .transform, false, ["df"], ["X"], []⟩,
   ⟨"y = df.iloc[:, 4]", .transform, false, ["df"], ["y"], []⟩,
   ⟨"train_test_split 1", .transform, false, ["X", "y"],
     ["X_train", "X_test", "y_train", "y_test"], []⟩,
   ⟨"lr = LinearRegression 1", .fit, false, [], ["lr"], []⟩,
   ⟨"linear = lr.fit(X_train, y_train)", .fit, true,
     ["lr", "X_train", "y_train"], ["linear"], []⟩,
   ⟨"y_pred = linear.predict(X_test)", .report, false,
     ["linear", "X_test"], ["y_pred"], []⟩,
   ⟨"print RMSE 1", .report, false, ["y_test", "y_pred"], [],
     [.consolePrint]⟩,
   ⟨"print(linear.coef_)", .report, false, ["linear"], [], [.consolePrint]⟩,
   ⟨"train_test_split 2", .transform, false, ["X", "y"],
     ["X_train", "X_test", "y_train", "y_test"], []⟩,
   ⟨"ss = StandardScaler()", .transform, false, [], ["ss"], []⟩,
   ⟨"X_train_ss = ss.fit_transform(X_train)", .transform, false,
     ["ss", "X_train"], ["ss", "X_train_ss"], []⟩,
   ⟨"lr = LinearRegression 2", .fit, false, [], ["lr"], []⟩,
   ⟨"linear = lr.fit(X_train_ss, y_train)", .fit, true,
     ["lr", "X_train_ss", "y_train"], ["linear"], []⟩,
   ⟨"y_pred = linear.predict(ss.transform(X_test))", .report, false,
     ["linear", "ss", "X_test"], ["y_pred"], []⟩,
   ⟨"print RMSE 2", .report, false, ["y_test", "y_pred"], [],
     [.consolePrint]⟩,
   ⟨"linear.coef_ display", .report, false, ["linear"], [], [.consolePrint]⟩]

/-- Trace of `0b-Recommender-Overview` (first notebook of
05-Recommender-MatrixFac.ipynb, code lines 63–183). -/
def nmfTrace : List Step :=
  [⟨"print Loading dataset", .load, false, [], [], [.consolePrint]⟩,
   ⟨"fetch_20newsgroups", .load, false, [], ["dataset"],
     [.fetchNetwork "20newsgroups"]⟩,
   ⟨"print done 1", .load, false, ["dataset"], [], [.consolePrint]⟩,
   ⟨"data_samples = dataset.data[:n_samples]", .transform, false,
     ["dataset"], ["data_samples"], []⟩,
   ⟨"print Extracting tf-idf", .transform, false, [], [], [.consolePrint]⟩,
   ⟨"tfidf_vectorizer = TfidfVectorizer(...)", .transform, false, [],
     ["tfidf_vectorizer"], []⟩,
   ⟨"tfidf = tfidf_vectorizer.fit_transform(data_samples)", .transform,
     false, ["tfidf_vectorizer", "data_samples"],
     ["tfidf_vectorizer", "tfidf"], []⟩,
   ⟨"print done 2", .transform, false, [], [], [.consolePrint]⟩,
   ⟨"print Fitting the NMF model", .fit, false, [], [], [.consolePrint]⟩,
   ⟨"nmf = NMF(...).fit(tfidf)", .fit, true, ["tfidf"], ["nmf"], []⟩,
   ⟨"print done 3", .fit, false, [], [], [.consolePrint]⟩,
   ⟨"tfidf_feature_names = tfidf_vectorizer.get_feature_names()", .report,
     false, ["tfidf_vectorizer"], ["tfidf_feature_names"], []⟩,
   ⟨"print(tfidf_feature_names)", .report, false, ["tfidf_feature_names"],
     [], [.consolePrint]⟩,
   ⟨"nmf.components_[0] display", .report, false, ["nmf"], [],
     [.consolePrint]⟩,
   ⟨"zip comprehension display", .report, false,
     ["tfidf_feature_names", "nmf"], [], [.consolePrint]⟩,
   ⟨"def print_top_words", .report, false, [], ["print_top_words"], []⟩,
   ⟨"print Topics header", .report, false, [], [], [.consolePrint]⟩,
   ⟨"print_top_words(nmf, tfidf_feature_names, n_top_words)", .report,
     false, ["print_top_words", "nmf", "tfidf_feature_names"], [],
     [.consolePrint]⟩]

/-- Trace of `04-Training-Dimensions-Streaming` (second notebook of
05-Recommender-MatrixFac.ipynb, code lines 266–298 and 337–376). -/
def kmTrace : List Step :=
  [⟨"read_csv diamonds", .load, false, [], ["df"],
     [.readCSVFile "data/diamonds.csv" true]⟩,
   ⟨"df2 = df.drop(df.columns[0], axis=1)", .transform, false, ["df"],
     ["df2"], []⟩,
   ⟨"df3 = pd.get_dummies(df2)", .transform, false, ["df2"], ["df3"], []⟩,
   ⟨"y = df3.iloc[:, 3]", .transform, false, ["df3"], ["y"], []⟩,
   ⟨"X = df3.drop(df3.columns[3], axis=1)", .transform, false, ["df3"],
     ["X"], []⟩,
   ⟨"cluster_labels = KMeans(n_clusters=3).fit_predict(X)", .fit, true,
     ["X"], ["cluster_labels"], []⟩,
   ⟨"cluster_labels display", .report, false, ["cluster_labels"], [],
     [.consolePrint]⟩,
   ⟨"kdf = pd.DataFrame(np.column_stack([cluster_labels, y]))", .report,
     false, ["cluster_labels", "y"], ["kdf"], []⟩,
   ⟨"print per-cluster price means", .report, false, ["kdf"], [],
     [.consolePrint]⟩,
   ⟨"iris = datasets.load_iris()", .load, false, [], ["iris"],
     [.loadBundled "iris"]⟩,
   ⟨"X = iris.data", .transform, false, ["iris"], ["X"], []⟩,
   ⟨"y = iris.target", .transform, false, ["iris"], ["y"], []⟩,
   ⟨"target_names = iris.target_names", .transform, false, ["iris"],
     ["target_names"], []⟩,
   ⟨"pca = PCA(n_components=2)", .fit, false, [], ["pca"], []⟩,
   ⟨"X_r = pca.fit(X).transform(X)", .fit, true, ["pca", "X"],
     ["pca", "X_r"], []⟩,
   ⟨"print explained variance ratios", .report, false, ["pca"], [],
     [.consolePrint]⟩,
   ⟨"pca.components_ display", .report, false, ["pca"], [],
     [.consolePrint]⟩,
   ⟨"colors and lw assignment", .report, false, [], ["colors", "lw"], []⟩,
   ⟨"plt.scatter loop", .report, false,
     ["colors", "X_r", "y", "target_names", "lw"], [], [.inlinePlot]⟩,
   ⟨"plt.legend", .report, false, [], [], [.inlinePlot]⟩,
   ⟨"plt.title", .report, false, [], [], [.inlinePlot]⟩]

/-- The three notebooks of the repository. -/
def allTraces : List (List Step) := [ssTrace, nmfTrace, kmTrace]

/-- Number of stock-estimator `fit` calls in a trace. -/
def countFits (tr : List Step) : ℕ := (tr.filter (fun s => s.fitsEstimator)).length

/-- Numeric rank of a phase in the claimed fixed order. -/
def phaseVal : Phase → ℕ
  | .load => 0
  | .transform => 1
  | .fit => 2
  | .report => 3

/-- Whether the phases of a trace are non-decreasing (the claimed fixed
order load → transform → fit → report). -/
def phaseMonotone : List Step → Bool
  | [] => true
  | [_] => true
  | a :: b :: t => decide (phaseVal a.phase ≤ phaseVal b.phase) &&
      phaseMonotone (b :: t)

/-- Whether every step reads only variables written by earlier steps. -/
def dataflowAux (written : List String) : List Step → Bool
  | [] => true
  | s :: rest => s.reads.all (fun v => written.contains v) &&
      dataflowAux (written ++ s.writes) rest

/-- No step precedes its input-producing step. -/
def dataflowOK (tr : List Step) : Bool := dataflowAux [] tr

/-- Whether an effect is an external input interface. -/
def isExternalInput : Effect → Bool
  | .readCSVFile _ _ => true
  | .fetchNetwork _ => true
  | .envRead _ => true
  | .netOther _ => true
  | _ => false

/-- All effects of all notebooks, in source order. -/
def allEffects : List Effect :=
  (allTraces.flatMap id).flatMap (fun s => s.effects)

/-- C2 counterexample: the standard-scaling notebook calls a stock
estimator's `fit` twice (`lr.fit` in the baseline cell, line 44, and again
on the standardized features, line 76), refuting "each notebook invokes a
stock estimator's fit exactly once". -/
theorem C2_standard_scaling_notebook_fits_twice :
    countFits ssTrace = 2 ∧ countFits ssTrace ≠ 1 := by decide

/-- C2 (amended): every notebook acquires a labeled table first, transforms
columns, calls a stock estimator's fit at least once — twice in the
standard-scaling and clustering/PCA notebooks, once in the NMF notebook —
and prints a summary statistic or top-ranked values. -/
theorem C2_every_notebook_fits_at_least_once :
    countFits ssTrace = 2 ∧ countFits nmfTrace = 1 ∧ countFits kmTrace = 2 ∧
    (allTraces.all (fun tr =>
      decide (1 ≤ countFits tr) &&
      decide ((tr.head?.map (fun s => s.phase)) = some Phase.load) &&
      tr.any (fun s =>
        decide (s.phase = Phase.report) &&
        (s.effects.contains Effect.consolePrint ||
         s.effects.contains Effect.inlinePlot)))) = true := by decide

/-- C7 counterexample: the standard-scaling notebook is not in the fixed
order load → transform → fit → report: it prints the baseline RMSE (report)
and only then standardizes features (transform) and fits again. -/
theorem C7_standard_scaling_trace_not_phase_ordered :
    phaseMonotone ssTrace = false := by decide

/-- C7 (amended): every notebook is a linear script in which no step
precedes its input-producing step; the NMF notebook follows the fixed phase
order load → transform → fit → report, and its pipeline consists of
`fetch_20newsgroups`, then `TfidfVectorizer.fit_transform`, then `NMF.fit`,
then `print_top_words`, in that order.  The other two notebooks repeat
transform/fit/report rounds after a report, so the fixed order describes
only each round, not the whole script. -/
theorem C7_linear_dataflow_and_nmf_pipeline_order :
    (allTraces.all dataflowOK) = true ∧
    phaseMonotone nmfTrace = true ∧
    nmfTrace.findIdx (fun s => s.tag = "fetch_20newsgroups") <
      nmfTrace.findIdx (fun s =>
        s.tag = "tfidf = tfidf_vectorizer.fit_transform(data_samples)") ∧
    nmfTrace.findIdx (fun s =>
        s.tag = "tfidf = tfidf_vectorizer.fit_transform(data_samples)") <
      nmfTrace.findIdx (fun s => s.tag = "nmf = NMF(...).fit(tfidf)") ∧
    nmfTrace.findIdx (fun s => s.tag = "nmf = NMF(...).fit(tfidf)") <
      nmfTrace.findIdx (fun s =>
        s.tag = "print_top_words(nmf, tfidf_feature_names, n_top_words)") ∧
    nmfTrace.findIdx (fun s =>
        s.tag = "print_top_words(nmf, tfidf_feature_names, n_top_words)") <
      nmfTrace.length := by decide

/-- C6: the only external input interfaces of the repository are the two
relative-path CSV reads and, in exactly one notebook, the 20newsgroups
fetch; there are no file writes, no environment reads, no other network
access; every remaining effect is a bundled-dataset load (`load_iris`,
internal to the library), a console print, or an inline plot. -/
theorem C6_external_interfaces_are_csv_reads_and_one_fetch :
    allEffects.filter isExternalInput =
      [Effect.readCSVFile "data/powerplant.csv" true,
       Effect.fetchNetwork "20newsgroups",
       Effect.readCSVFile "data/diamonds.csv" true] ∧
    (allEffects.all (fun e => match e with
      | Effect.readCSVFile _ rel => rel
      | _ => true)) = true ∧
    (allTraces.filter (fun tr => tr.any (fun s => s.effects.any (fun e =>
      match e with
      | Effect.fetchNetwork _ => true
      | _ => false)))).length = 1 ∧
    (allEffects.all (fun e => match e with
      | Effect.fileWrite _ => false
      | Effect.envRead _ => false
      | Effect.netOther _ => false
      | _ => true)) = true ∧
    ((allEffects.filter (fun e => !isExternalInput e)).all (fun e =>
      match e with
      | Effect.loadBundled _ => true
      | Effect.consolePrint => true
      | Effect.inlinePlot => true
      | _ => false)) = true := by decide

/-! ### Error propagation (C5)

The notebooks contain no `try`/`except`, no retries and no error
translation: a failing library call (`pd.read_csv`, `fetch_20newsgroups`)
aborts the run with the library's error.  `runSteps` is the notebook
execution semantics: named statements run in order, stopping at the first
error; it returns the result and the list of statements that executed.
Library transformations that cannot be embedded numerically
(`TfidfVectorizer`, `NMF`, `get_dummies`, `PCA`) enter as function
parameters; the claim holds for every choice of them. -/

/-- A library failure raised by `pd.read_csv` or `fetch_20newsgroups`. -/
inductive LibError
  | fileNotFound (path : String)
  | parseError (path : String)
  | fetchFailed (corpus : String)
deriving DecidableEq, Repr

/-- The external world: CSV contents by path, and the corpus fetch result. -/
structure Env where
  csv : String → Except LibError (List (List ℚ))
  corpus : Except LibError (List String)

/-- Run named fallible statements in order; stop at the first error and
return it unchanged, with the list of statements that executed. -/
def runSteps {St : Type} :
    List (String × (St → Except LibError St)) → St →
    Except LibError St × List String
  | [], s => (Except.ok s, [])
  | (nm, f) :: rest, s =>
    match f s with
    | Except.ok s2 =>
      let r := runSteps rest s2
      (r.1, nm :: r.2)
    | Except.error e => (Except.error e, [nm])

theorem runSteps_first_error {St : Type} (nm : String)
    (f : St → Except LibError St)
    (rest : List (String × (St → Except LibError St))) (s : St)
    (e : LibError) (h : f s = Except.error e) :
    runSteps ((nm, f) :: rest) s = (Except.error e, [nm]) := by
  simp [runSteps, h]

/-- State of a run of the StandardScaling notebook: the loaded table and
the two printed mean-squared errors. -/
structure SSRun where
  df : Option (List (List ℚ))
  out1 : Option ℚ
  out2 : Option ℚ

def ssInit : SSRun := ⟨none, none, none⟩

/-- The StandardScaling notebook as fallible statements: the `read_csv`
call, the baseline cell, and the standardization cells. -/
def ssSteps (env : Env) (sq : ℚ → ℚ) (p1 p2 : List ℕ) :
    List (String × (SSRun → Except LibError SSRun)) :=
  [("pd.read_csv data/powerplant.csv", fun s =>
      (env.csv "data/powerplant.csv").map (fun d => { s with df := some d })),
   ("baseline regression cell", fun s =>
      Except.ok { s with out1 := s.df.bind (fun d => baselineMSE d p1) }),
   ("standardized regression cells", fun s =>
      Except.ok { s with out2 := s.df.bind (fun d =>
        (cell3 sq (cell2 sq (featX d) (targY d) p2)).2.2) })]

/-- State of a run of the NMF notebook. -/
structure NMFRun where
  dataset : Option (List String)
  tfidf : Option (List (List ℚ))
  comps : Option (List (List ℚ))
  topics : Option (Option (List (ℕ × List String)))

def nmfInit : NMFRun := ⟨none, none, none, none⟩

/-- The NMF notebook as fallible statements; `vect` and `nmfFit` stand for
the library vectorizer and factorization, `names` for the vectorizer's
vocabulary. -/
def nmfSteps (env : Env) (vect : List String → List (List ℚ))
    (nmfFit : List (List ℚ) → List (List ℚ)) (names : List String) (n : ℕ) :
    List (String × (NMFRun → Except LibError NMFRun)) :=
  [("fetch_20newsgroups", fun s =>
      env.corpus.map (fun d => { s with dataset := some d })),
   ("tfidf_vectorizer.fit_transform", fun s =>
      Except.ok { s with tfidf := s.dataset.map (fun d => vect (d.take 2000)) }),
   ("NMF fit", fun s => Except.ok { s with comps := s.tfidf.map nmfFit }),
   ("print_top_words call", fun s =>
      Except.ok { s with topics := s.comps.map (fun c => print_top_words c names n) })]

/-- Model of the per-cluster price means `[kdf[kdf.cluster==n].price.mean() for n in range(0, 3)]`. -/
def clusterPriceMeans (labels : List ℕ) (prices : List ℚ) : List ℚ :=
  ([0, 1, 2] : List ℕ).map (fun n =>
    listMean (((labels.zip prices).filter (fun p => p.1 = n)).map
      (fun p => p.2)))

/-- State of a run of the clustering/PCA notebook. -/
structure KMRun where
  df : Option (List (List ℚ))
  feats : Option (List (List ℚ))
  price : Option (List ℚ)
  labels : Option (List ℕ)
  means : Option (List ℚ)
  comps : Option (List (List ℚ))

def kmInit : KMRun := ⟨none, none, none, none, none, none⟩

/-- The clustering/PCA notebook as fallible statements; `encode` stands for
the pandas drop/one-hot pipeline producing `df3`, `pcaFit` for the PCA
components computation and `iris` for the bundled iris table. -/
def kmSteps (env : Env) (encode : List (List ℚ) → List (List ℚ))
    (pcaFit : List (List ℚ) → List (List ℚ)) (iris : List (List ℚ)) :
    List (String × (KMRun → Except LibError KMRun)) :=
  [("pd.read_csv data/diamonds.csv", fun s =>
      (env.csv "data/diamonds.csv").map (fun d => { s with df := some d })),
   ("get_dummies and column selection", fun s =>
      Except.ok { s with
        feats := s.df.map (fun d => (encode d).map (fun r => r.eraseIdx 3)),
        price := s.df.map (fun d => (encode d).map (fun r => r.getD 3 0)) }),
   ("KMeans fit_predict", fun s =>
      Except.ok { s with labels := s.feats.map (kmeansFitPredict 3) }),
   ("per-cluster price means print", fun s =>
      Except.ok { s with means := s.labels.bind (fun ls =>
        s.price.map (fun ys => clusterPriceMeans ls ys)) }),
   ("iris PCA cell", fun s =>
      Except.ok { s with comps := some (pcaFit iris) })]

/-- C5: a failing `pd.read_csv` or `fetch_20newsgroups` makes the notebook
result exactly the library's error — unchanged, untranslated, with no
retry — and no later statement executes (the executed-statement list stops
at the failing call).  This holds for every environment, every RNG draw and
every choice of the library transformations. -/
theorem C5_library_errors_propagate_unchanged (env : Env) (sq : ℚ → ℚ)
    (p1 p2 : List ℕ) (vect : List String → List (List ℚ))
    (nmfFit : List (List ℚ) → List (List ℚ)) (names : List String) (n : ℕ)
    (encode : List (List ℚ) → List (List ℚ))
    (pcaFit : List (List ℚ) → List (List ℚ)) (iris : List (List ℚ))
    (e : LibError) :
    (env.csv "data/powerplant.csv" = Except.error e →
      runSteps (ssSteps env sq p1 p2) ssInit =
        (Except.error e, ["pd.read_csv data/powerplant.csv"])) ∧
    (env.corpus = Except.error e →
      runSteps (nmfSteps env vect nmfFit names n) nmfInit =
        (Except.error e, ["fetch_20newsgroups"])) ∧
    (env.csv "data/diamonds.csv" = Except.error e →
      runSteps (kmSteps env encode pcaFit iris) kmInit =
        (Except.error e, ["pd.read_csv data/diamonds.csv"])) := by
  refine ⟨fun h => ?_, fun h => ?_, fun h => ?_⟩
  · rw [ssSteps]
    exact runSteps_first_error _ _ _ _ e (by rw [h]; rfl)
  · rw [nmfSteps]
    exact runSteps_first_error _ _ _ _ e (by rw [h]; rfl)
  · rw [kmSteps]
    exact runSteps_first_error _ _ _ _ e (by rw [h]; rfl)

/-- Witness for C5: an environment with a missing `powerplant.csv`, a
failing corpus fetch, and a missing `diamonds.csv`. -/
theorem C5_library_errors_propagate_unchanged_witness :
    runSteps (ssSteps ⟨fun p => Except.error (LibError.fileNotFound p),
        Except.error (LibError.fetchFailed "20newsgroups")⟩
        (fun _ => 1) [] []) ssInit =
      (Except.error (LibError.fileNotFound "data/powerplant.csv"),
        ["pd.read_csv data/powerplant.csv"]) ∧
    runSteps (nmfSteps ⟨fun p => Except.error (LibError.fileNotFound p),
        Except.error (LibError.fetchFailed "20newsgroups")⟩
        (fun _ => []) id [] 20) nmfInit =
      (Except.error (LibError.fetchFailed "20newsgroups"),
        ["fetch_20newsgroups"]) ∧
    runSteps (kmSteps ⟨fun p => Except.error (LibError.fileNotFound p),
        Except.error (LibError.fetchFailed "20newsgroups")⟩
        id id []) kmInit =
      (Except.error (LibError.fileNotFound "data/diamonds.csv"),
        ["pd.read_csv data/diamonds.csv"]) := by
  exact ⟨(C5_library_errors_propagate_unchanged _ (fun _ => 1) [] []
      (fun _ => []) id [] 20 id id []
      (LibError.fileNotFound "data/powerplant.csv")).1 rfl,
    (C5_library_errors_propagate_unchanged _ (fun _ => 1) [] []
      (fun _ => []) id [] 20 id id []
      (LibError.fetchFailed "20newsgroups")).2.1 rfl,
    (C5_library_errors_propagate_unchanged _ (fun _ => 1) [] []
      (fun _ => []) id [] 20 id id []
      (LibError.fileNotFound "data/diamonds.csv")).2.2 rfl⟩

end CML2019
